import Mathlib

/-!
Shallow embedding of the GLSFS command-safety and sandbox-execution pipeline
(`src/safety/validator.py` and `src/sandbox/executor.py`), together with proofs
settling the frozen claims about it.

Commands are Python `str` values; we embed them as `String` / `List Char`.
Python's `re` searches are translated pattern by pattern into executable
matchers (case folding is done ASCII-wise via `Char.toLower`, which agrees
with `re.IGNORECASE` on the ASCII patterns the source uses).  External
effects (Docker API calls, `subprocess.run`, wall-clock timestamps) are
modelled as oracle parameters; the Python code around them is embedded
faithfully.  The validator is instantiated with its default
`sandbox_root = "/home/user"`, as `glsfs_system.py` does.
-/

namespace GLSFS

/-- Python `\s` / `str.strip` whitespace characters (ASCII range):
space, tab, newline, carriage return, vertical tab, form feed. -/
def isPyWs (c : Char) : Bool :=
  c = ' ' || c = '\t' || c = '\n' || c = '\r' || c = Char.ofNat 11 || c = Char.ofNat 12

/-- Single-quote character (written via code point to keep literals plain). -/
def squote : Char := Char.ofNat 39

/-- Double-quote character. -/
def dquote : Char := Char.ofNat 34

/-- Backtick character. -/
def btick : Char := Char.ofNat 96

/-- Case-insensitive character comparison, as `re.IGNORECASE` does on ASCII. -/
def lcEq (a b : Char) : Bool := a.toLower = b.toLower

/-- Python `str.lower` (ASCII range, which covers every string the code lowers). -/
def lowerL (s : List Char) : List Char := s.map Char.toLower

/-- Python `str.strip()` with no arguments. -/
def pyStrip (s : List Char) : List Char :=
  ((s.dropWhile isPyWs).reverse.dropWhile isPyWs).reverse

/-- `s.startswith(pat)` on character lists. -/
def isPfxL : List Char → List Char → Bool
  | [], _ => true
  | _ :: _, [] => false
  | p :: ps, c :: cs => p = c && isPfxL ps cs

/-- Case-insensitive version of `isPfxL` (for `re.IGNORECASE` matches). -/
def isCIPfxL : List Char → List Char → Bool
  | [], _ => true
  | _ :: _, [] => false
  | p :: ps, c :: cs => lcEq p c && isCIPfxL ps cs

/-- `pat in s` (Python substring containment). -/
def containsL (pat : List Char) : List Char → Bool
  | [] => isPfxL pat []
  | c :: cs => isPfxL pat (c :: cs) || containsL pat cs

/-- `s.endswith(pat)`. -/
def endswithL (pat s : List Char) : Bool := isPfxL pat.reverse s.reverse

/-- `s.split(pat)[0]`: the prefix of `s` before the first occurrence of `pat`
(`s` itself when `pat` does not occur). -/
def takeBeforeL (pat : List Char) : List Char → List Char
  | [] => []
  | c :: cs => if isPfxL pat (c :: cs) then [] else c :: takeBeforeL pat cs

/-- Worker for `replaceAll`; the `Nat` argument counts characters of a match
that are still to be skipped (they were already consumed by emitting the
replacement). -/
def replaceGo (pat repl : List Char) : Nat → List Char → List Char
  | 0, [] => []
  | 0, c :: cs =>
      if isPfxL pat (c :: cs) then repl ++ replaceGo pat repl (pat.length - 1) cs
      else c :: replaceGo pat repl 0 cs
  | _ + 1, [] => []
  | k + 1, _ :: cs => replaceGo pat repl k cs

/-- Python `s.replace(pat, repl)`: left-to-right, non-overlapping (the source
only calls it with non-empty `pat`). -/
def replaceAll (pat repl s : List Char) : List Char :=
  if pat = [] then s else replaceGo pat repl 0 s

/-- Worker for `countOcc` (Python `s.count(pat)`, non-overlapping). -/
def countOccGo (pat : List Char) : Nat → List Char → Nat
  | 0, [] => 0
  | 0, c :: cs =>
      if isPfxL pat (c :: cs) then 1 + countOccGo pat (pat.length - 1) cs
      else countOccGo pat 0 cs
  | _ + 1, [] => 0
  | k + 1, _ :: cs => countOccGo pat k cs

/-- Python `s.count(pat)` for non-empty `pat`. -/
def countOcc (pat s : List Char) : Nat := countOccGo pat 0 s

/-- Worker for `splitWs`. -/
def splitWsGo (cur : List Char) : List Char → List (List Char)
  | [] => if cur = [] then [] else [cur]
  | c :: cs =>
      if isPyWs c then
        if cur = [] then splitWsGo [] cs else cur :: splitWsGo [] cs
      else splitWsGo (cur ++ [c]) cs

/-- Python `s.split()` with no arguments: maximal runs of non-whitespace. -/
def splitWs (s : List Char) : List (List Char) := splitWsGo [] s

/-- `os.path.basename` for POSIX paths: the part after the last slash. -/
def basenameL (s : List Char) : List Char :=
  (s.reverse.takeWhile (fun c => c ≠ '/')).reverse

/-- Component step of `posixpath.normpath`: Python's loop over
`path.split('/')` with a stack of kept components. -/
def normComps (slashes : Nat) (acc : List (List Char)) : List (List Char) → List (List Char)
  | [] => acc
  | comp :: rest =>
      if comp = [] ∨ comp = ['.'] then normComps slashes acc rest
      else if comp ≠ ['.', '.'] ∨ (slashes = 0 ∧ acc = []) ∨ (acc ≠ [] ∧ acc.getLast? = some ['.', '.']) then
        normComps slashes (acc ++ [comp]) rest
      else if acc ≠ [] then normComps slashes acc.dropLast rest
      else normComps slashes acc rest

/-- `os.path.normpath` (POSIX flavour), as called by the validator. -/
def normpathL (p : List Char) : List Char :=
  if p = [] then ['.']
  else
    let slashes : Nat :=
      if isPfxL ['/', '/'] p ∧ ¬ isPfxL ['/', '/', '/'] p then 2
      else if isPfxL ['/'] p then 1 else 0
    let comps := p.splitOn '/'
    let kept := normComps slashes [] comps
    let joined := List.intercalate ['/'] kept
    let res := List.replicate slashes '/' ++ joined
    if res = [] then ['.'] else res

/-!
Regex matchers.  Each Python `re.search(pattern, s, re.IGNORECASE)` call is
translated into a continuation-passing matcher over `List Char` plus a
left-to-right search over all start positions.  Every `*`/`+` in the source's
patterns ranges over a single-character class, so star/plus combinators over a
character predicate suffice.  `$` matches at the end of the string or just
before one final newline, as in Python without `re.MULTILINE`.
-/

/-- Continuation type of the matchers: remaining input to acceptance. -/
abbrev MK := List Char → Bool

/-- Worker for `mLit`: match a literal case-insensitively, then continue. -/
def mLitGo (k : MK) : List Char → List Char → Bool
  | [], s => k s
  | _ :: _, [] => false
  | p :: ps, c :: cs => lcEq p c && mLitGo k ps cs

/-- Match a literal string case-insensitively, then continue with `k`. -/
def mLit (pat : List Char) (k : MK) : MK := fun s => mLitGo k pat s

/-- Match one character satisfying `p`, then continue. -/
def mCls (p : Char → Bool) (k : MK) : MK := fun s =>
  match s with
  | [] => false
  | c :: cs => p c && k cs

/-- Worker for `mStar`: zero or more characters satisfying `p` (with
backtracking via the continuation). -/
def mStarGo (p : Char → Bool) (k : MK) : List Char → Bool
  | [] => k []
  | c :: cs => k (c :: cs) || (p c && mStarGo p k cs)

/-- `p*` over a character class. -/
def mStar (p : Char → Bool) (k : MK) : MK := fun s => mStarGo p k s

/-- `p+` over a character class. -/
def mPlus (p : Char → Bool) (k : MK) : MK := mCls p (mStar p k)

/-- `$`: end of input, or just before one trailing newline. -/
def mEnd : MK := fun s => s = [] || s = ['\n']

/-- Trivial continuation: the rest of the pattern is empty and unanchored. -/
def mAny : MK := fun _ => true

/-- Alternation `(a|b)`. -/
def mAlt (a b : MK) : MK := fun s => a s || b s

/-- Regex `.`: any character except newline. -/
def isDot (c : Char) : Bool := c ≠ '\n'

/-- Regex class `[a-z]` under `re.IGNORECASE`. -/
def isAzCI (c : Char) : Bool := 'a' ≤ c.toLower && c.toLower ≤ 'z'

/-- `re.search`: try the matcher at every start position. -/
def searchL (m : MK) : List Char → Bool
  | [] => m []
  | c :: cs => m (c :: cs) || searchL m cs

/-! The 17 forbidden patterns of `CommandSafetyValidator.__init__`, in order. -/

/-- `rm\s+-rf\s+/\s*$` -/
def patRmRfRootEnd : MK :=
  mLit "rm".data (mPlus isPyWs (mLit "-rf".data (mPlus isPyWs (mLit "/".data (mStar isPyWs mEnd)))))

/-- `rm\s+-rf\s+/\s+` -/
def patRmRfRootSp : MK :=
  mLit "rm".data (mPlus isPyWs (mLit "-rf".data (mPlus isPyWs (mLit "/".data (mPlus isPyWs mAny)))))

/-- `rm\s+-rf\s+~\s*$` -/
def patRmRfTilde : MK :=
  mLit "rm".data (mPlus isPyWs (mLit "-rf".data (mPlus isPyWs (mLit "~".data (mStar isPyWs mEnd)))))

/-- `rm\s+-rf\s+/home/user\s*$` -/
def patRmRfHome : MK :=
  mLit "rm".data (mPlus isPyWs (mLit "-rf".data (mPlus isPyWs (mLit "/home/user".data (mStar isPyWs mEnd)))))

/-- `:\(\)\{:\|:&\};:` (the fork-bomb literal). -/
def patForkBomb : MK := mLit ":()\x7b:|:&\x7d;:".data mAny

/-- `dd\s+if=/dev/(zero|random)\s+of=/dev/sd` -/
def patDdWipe : MK :=
  mLit "dd".data (mPlus isPyWs (mLit "if=/dev/".data
    (mAlt (mLit "zero".data (mPlus isPyWs (mLit "of=/dev/sd".data mAny)))
          (mLit "random".data (mPlus isPyWs (mLit "of=/dev/sd".data mAny))))))

/-- `mkfs\.` -/
def patMkfs : MK := mLit "mkfs.".data mAny

/-- `>\s*/dev/sd[a-z]` -/
def patRedirDisk : MK := mLit ">".data (mStar isPyWs (mLit "/dev/sd".data (mCls isAzCI mAny)))

/-- `chmod\s+-R\s+777\s+/` -/
def patChmodRoot : MK :=
  mLit "chmod".data (mPlus isPyWs (mLit "-R".data (mPlus isPyWs (mLit "777".data (mPlus isPyWs (mLit "/".data mAny))))))

/-- `chown\s+-R.*\s+/` -/
def patChownRoot : MK :=
  mLit "chown".data (mPlus isPyWs (mLit "-R".data (mStar isDot (mPlus isPyWs (mLit "/".data mAny)))))

/-- `/dev/sd[a-z]` -/
def patDevSd : MK := mLit "/dev/sd".data (mCls isAzCI mAny)

/-- `curl.*\|\s*bash` -/
def patCurlBash : MK := mLit "curl".data (mStar isDot (mLit "|".data (mStar isPyWs (mLit "bash".data mAny))))

/-- `wget.*\|\s*sh` -/
def patWgetSh : MK := mLit "wget".data (mStar isDot (mLit "|".data (mStar isPyWs (mLit "sh".data mAny))))

/-- `>\s*/etc/` -/
def patRedirEtc : MK := mLit ">".data (mStar isPyWs (mLit "/etc/".data mAny))

/-- `rm\s+-rf\s+/etc` -/
def patRmRfEtc : MK := mLit "rm".data (mPlus isPyWs (mLit "-rf".data (mPlus isPyWs (mLit "/etc".data mAny))))

/-- `rm\s+-rf\s+/usr` -/
def patRmRfUsr : MK := mLit "rm".data (mPlus isPyWs (mLit "-rf".data (mPlus isPyWs (mLit "/usr".data mAny))))

/-- `rm\s+-rf\s+/var` -/
def patRmRfVar : MK := mLit "rm".data (mPlus isPyWs (mLit "-rf".data (mPlus isPyWs (mLit "/var".data mAny))))

/-- `self.forbidden_patterns`, in source order. -/
def forbiddenMatchers : List MK :=
  [patRmRfRootEnd, patRmRfRootSp, patRmRfTilde, patRmRfHome, patForkBomb,
   patDdWipe, patMkfs, patRedirDisk, patChmodRoot, patChownRoot, patDevSd,
   patCurlBash, patWgetSh, patRedirEtc, patRmRfEtc, patRmRfUsr, patRmRfVar]

/-- Step 1 of `validate`: does any forbidden pattern match anywhere? -/
def forbiddenMatch (s : List Char) : Bool :=
  forbiddenMatchers.any (fun m => searchL m s)

/-! The dangerous injection patterns of `_detect_injection`, in order. -/

/-- `;\s*rm\s+-rf` -/
def patChainRm : MK := mLit ";".data (mStar isPyWs (mLit "rm".data (mPlus isPyWs (mLit "-rf".data mAny))))

/-- `\$\([^)]*rm[^)]*\)` -/
def patSubstRm : MK :=
  mLit "$(".data (mStar (fun c => c ≠ ')') (mLit "rm".data (mStar (fun c => c ≠ ')') (mLit ")".data mAny))))

/-- The backtick analogue of `patSubstRm`. -/
def patBtickRm : MK :=
  mCls (fun c => c = btick) (mStar (fun c => c ≠ btick)
    (mLit "rm".data (mStar (fun c => c ≠ btick) (mCls (fun c => c = btick) mAny))))

/-- `\|\s*sh\s*$` -/
def patPipeSh : MK := mLit "|".data (mStar isPyWs (mLit "sh".data (mStar isPyWs mEnd)))

/-- `\|\s*bash\s*$` -/
def patPipeBash : MK := mLit "|".data (mStar isPyWs (mLit "bash".data (mStar isPyWs mEnd)))

/-- `\|\s*zsh\s*$` -/
def patPipeZsh : MK := mLit "|".data (mStar isPyWs (mLit "zsh".data (mStar isPyWs mEnd)))

/-- `eval\s+` -/
def patEval : MK := mLit "eval".data (mPlus isPyWs mAny)

/-- `2>&1.*\|\s*(nc|netcat)` -/
def patRevShell : MK :=
  mLit "2>&1".data (mStar isDot (mLit "|".data (mStar isPyWs
    (mAlt (mLit "nc".data mAny) (mLit "netcat".data mAny)))))

/-- `>\s*/dev/null\s*2>&1\s*&` -/
def patBgRedir : MK :=
  mLit ">".data (mStar isPyWs (mLit "/dev/null".data (mStar isPyWs
    (mLit "2>&1".data (mStar isPyWs (mLit "&".data mAny))))))

/-- The `dangerous_patterns` list of `_detect_injection`, in source order. -/
def injectionDangerous : List MK :=
  [patChainRm, patSubstRm, patBtickRm, patPipeSh, patPipeBash, patPipeZsh,
   patEval, patRevShell, patBgRedir]

/-- `is_dangerous` of `_detect_injection`. -/
def injectionDetected (s : List Char) : Bool :=
  injectionDangerous.any (fun m => searchL m s)

/-- `\$\([^)]+\)` (suspicious, warning only). -/
def patSubstAny : MK := mLit "$(".data (mPlus (fun c => c ≠ ')') (mLit ")".data mAny))

/-- Backtick pair with non-empty body (suspicious, warning only). -/
def patBtickAny : MK :=
  mCls (fun c => c = btick) (mPlus (fun c => c ≠ btick) (mCls (fun c => c = btick) mAny))

/-- The warning list built by `_detect_injection` from the suspicious patterns. -/
def injectionWarnings (s : List Char) : List String :=
  (if searchL patSubstAny s then ["⚠️  Command substitution used"] else []) ++
  (if searchL patBtickAny s then ["⚠️  Backtick substitution used"] else [])

/-! Path normalization: `CommandSafetyValidator._sanitize_paths` and
`SandboxExecutor._smart_normalize_command` with its helpers. -/

/-- The validator's `sandbox_root` (default instantiation, as used by
`glsfs_system.py`) and the executor's hard-coded sandbox home. -/
def sandboxRoot : List Char := "/home/user".data

/-- Lookahead `(?=\s|$)`: next character is whitespace, or end of input
(a trailing newline is itself `\s`, so this is exactly Python's behaviour). -/
def lookWsEnd : List Char → Bool
  | [] => true
  | c :: _ => isPyWs c

/-- Worker for `subTokWsEnd`, with a skip counter for consumed match text. -/
def subTokWsEndGo (tok repl : List Char) : Nat → List Char → List Char
  | 0, [] => []
  | 0, c :: cs =>
      if isPfxL tok (c :: cs) ∧ lookWsEnd ((c :: cs).drop tok.length) then
        repl ++ subTokWsEndGo tok repl (tok.length - 1) cs
      else c :: subTokWsEndGo tok repl 0 cs
  | _ + 1, [] => []
  | k + 1, _ :: cs => subTokWsEndGo tok repl k cs

/-- `re.sub(re.escape(tok) + r'(?=\s|$)', repl, s)` for a literal `tok`
(used with `~`, `$HOME`, `${HOME}`); the lookahead consumes nothing. -/
def subTokWsEnd (tok repl s : List Char) : List Char :=
  subTokWsEndGo tok repl 0 s

/-- `CommandSafetyValidator._sanitize_paths` (tilde/`$HOME` expansion only). -/
def sanitizePathsL (command : List Char) : List Char :=
  let r := replaceAll "~/".data "/home/user/".data command
  let r := replaceAll "$HOME/".data "/home/user/".data r
  let r := replaceAll "$\x7bHOME\x7d/".data "/home/user/".data r
  let r := replaceAll "$HOME".data "/home/user".data r
  let r := replaceAll "$\x7bHOME\x7d".data "/home/user".data r
  subTokWsEnd "~".data "/home/user".data r

/-- String-level `_sanitize_paths`. -/
def sanitizePaths (c : String) : String := String.mk (sanitizePathsL c.data)

/-- Lookahead `(?=/|$|\s)` of the folder-case regex. -/
def lookFolder : List Char → Bool
  | [] => true
  | c :: _ => c = '/' || isPyWs c

/-- The literal group `(/home/user/)` of the folder-case regex. -/
def homePath11 : List Char := "/home/user/".data

/-- Worker for `subFolder`: `re.sub(r'(/home/user/)wrong(?=/|$|\s)',
r'\1Correct', s, flags=re.IGNORECASE)`.  `\1` keeps the case of the matched
`/home/user/` text, so the matched 11-character prefix is emitted verbatim. -/
def subFolderGo (wrong correct : List Char) : Nat → List Char → List Char
  | 0, [] => []
  | 0, c :: cs =>
      if isCIPfxL homePath11 (c :: cs) ∧ isCIPfxL wrong ((c :: cs).drop 11) ∧
          lookFolder ((c :: cs).drop (11 + wrong.length)) then
        (c :: cs).take 11 ++ correct ++ subFolderGo wrong correct (11 + wrong.length - 1) cs
      else c :: subFolderGo wrong correct 0 cs
  | _ + 1, [] => []
  | k + 1, _ :: cs => subFolderGo wrong correct k cs

/-- Pattern 1 of `_fix_folder_case` for one folder name. -/
def subFolder (wrong correct s : List Char) : List Char :=
  subFolderGo wrong correct 0 s

/-- Worker for `tokenizeL`: `_tokenize_preserving_quotes`, carrying the
`in_quote` state and the current token. -/
def tokGo (q : Option Char) (cur : List Char) : List Char → List (List Char)
  | [] => if cur = [] then [] else [cur]
  | c :: cs =>
      if c = dquote ∨ c = squote then
        match q with
        | some qc =>
            if qc = c then tokGo none (cur ++ [c]) cs
            else tokGo q (cur ++ [c]) cs
        | none => tokGo (some c) (cur ++ [c]) cs
      else if c = ' ' ∧ q = none then
        if cur = [] then tokGo none [] cs else cur :: tokGo none [] cs
      else tokGo q (cur ++ [c]) cs

/-- `SandboxExecutor._tokenize_preserving_quotes`. -/
def tokenizeL (s : List Char) : List (List Char) := tokGo none [] s

/-- The per-token case fix of `_fix_folder_case`: quoted tokens are skipped,
a bare folder name is replaced by its canonical casing, and a
`folder/...` token gets its leading component recased. -/
def fixTok (wrong correct t : List Char) : List Char :=
  if isPfxL [squote] t || isPfxL [dquote] t then t
  else if lowerL t = wrong then correct
  else if isPfxL (wrong ++ ['/']) (lowerL t) then correct ++ t.drop wrong.length
  else t

/-- `' '.join(tokens)`. -/
def joinSp (ts : List (List Char)) : List Char := List.intercalate [' '] ts

/-- `self.canonical_folders` in insertion order. -/
def folderPairs : List (List Char × List Char) :=
  [("desktop".data, "Desktop".data), ("documents".data, "Documents".data),
   ("downloads".data, "Downloads".data), ("workspace".data, "workspace".data)]

/-- One iteration of the `_fix_folder_case` loop body for a `(wrong, correct)`
pair: the guard `wrong == correct.lower()`, the `continue` when the pair is
already canonical, then the regex pass, tokenize, per-token fix and re-join. -/
def fixFolderStep (s : List Char) (p : List Char × List Char) : List Char :=
  if p.1 = lowerL p.2 then
    if p.1 = p.2 then s
    else joinSp ((tokenizeL (subFolder p.1 p.2 s)).map (fixTok p.1 p.2))
  else s

/-- `SandboxExecutor._fix_folder_case`. -/
def fixFolderCaseL (s : List Char) : List Char := folderPairs.foldl fixFolderStep s

/-- `SandboxExecutor._smart_normalize_command`: tilde expansion, `$HOME`
expansion, then folder-case fixing (the steps in source order). -/
def smartNormalizeL (command : List Char) : List Char :=
  if command = [] then command
  else
    let r := replaceAll "~/".data "/home/user/".data command
    let r := subTokWsEnd "~".data "/home/user".data r
    let r := replaceAll "$HOME/".data "/home/user/".data r
    let r := replaceAll "$\x7bHOME\x7d/".data "/home/user/".data r
    let r := subTokWsEnd "$HOME".data "/home/user".data r
    let r := subTokWsEnd "$\x7bHOME\x7d".data "/home/user".data r
    fixFolderCaseL r

/-- String-level `_smart_normalize_command`. -/
def smartNormalize (c : String) : String := String.mk (smartNormalizeL c.data)

/-! The validator: command classification, target extraction, boundary
checks, the final path sweep, and `validate` itself. -/

/-- `self.write_commands`. -/
def writeCommands : List (List Char) :=
  ["rm".data, "mv".data, "cp".data, "chmod".data, "chown".data, "touch".data,
   "mkdir".data, "rmdir".data, "ln".data, "truncate".data, "shred".data]

/-- `self.readonly_commands`. -/
def readonlyCommands : List (List Char) :=
  (["ls", "cat", "head", "tail", "less", "more", "find", "grep", "egrep", "fgrep",
    "wc", "file", "stat", "du", "df", "tree", "pwd", "echo", "printf",
    "sort", "uniq", "cut", "awk", "sed", "diff", "comm", "cmp",
    "basename", "dirname", "realpath", "readlink", "md5sum", "sha256sum",
    "strings", "od", "hexdump", "xxd", "nl", "tac", "rev", "column",
    "date", "cal", "env", "printenv", "id", "whoami", "hostname",
    "true", "false", "test", "[", "expr"]).map String.data

/-- `self.safe_paths`. -/
def safePaths : List (List Char) :=
  (["/home/user", "/home/user/Desktop", "/home/user/Documents", "/home/user/Downloads",
    "/home/user/workspace", "/workspace", "/tmp"]).map String.data

/-- `self.readonly_mounts`. -/
def readonlyMounts : List (List Char) :=
  (["/home/user/Desktop", "/home/user/Documents", "/home/user/Downloads"]).map String.data

/-- `CommandSafetyValidator._get_base_command`: cut at the first pipe and
chain operator, strip/split, skip a leading `sudo`, drop a path prefix. -/
def getBaseCommandL (command : List Char) : List Char :=
  let c := if containsL "|".data command then takeBeforeL "|".data command else command
  let c := if containsL "&&".data c then takeBeforeL "&&".data c else c
  let c := if containsL "||".data c then takeBeforeL "||".data c else c
  let c := if containsL ";".data c then takeBeforeL ";".data c else c
  match splitWs (pyStrip c) with
  | [] => []
  | [p] => if containsL "/".data p then basenameL p else p
  | p :: q :: _ =>
      let cmd := if p = "sudo".data then q else p
      if containsL "/".data cmd then basenameL cmd else cmd

/-- A flag argument (leading `-`). -/
def isFlag (t : List Char) : Bool := isPfxL "-".data t

/-- `CommandSafetyValidator._extract_target_paths`. -/
def extractTargetsL (command base : List Char) : List (List Char) :=
  let args := (splitWs command).drop 1
  if base = "rm".data ∨ base = "rmdir".data ∨ base = "shred".data then
    args.filter (fun p => ¬ isFlag p)
  else if base = "mv".data ∨ base = "cp".data ∨ base = "ln".data then
    match (args.filter (fun p => ¬ isFlag p)).getLast? with
    | some t => [t]
    | none => []
  else if base = "touch".data ∨ base = "mkdir".data then
    args.filter (fun p => ¬ isFlag p)
  else if base = "chmod".data ∨ base = "chown".data then
    (args.filter (fun p => ¬ isFlag p)).drop 1
  else []

/-- Prefix a relative path with `f'{sandbox_root}/'`, as `_is_readonly_path`
and `_is_in_sandbox` both do. -/
def absIfRel (p : List Char) : List Char :=
  if isPfxL "/".data p then p else sandboxRoot ++ ['/'] ++ p

/-- `CommandSafetyValidator._is_readonly_path`. -/
def isReadonlyPathL (p : List Char) : Bool :=
  let q := normpathL (absIfRel p)
  readonlyMounts.any (fun ro => isPfxL ro q || q = ro)

/-- `CommandSafetyValidator._is_in_sandbox`. -/
def isInSandboxL (p : List Char) : Bool :=
  let q := normpathL (absIfRel p)
  safePaths.any (fun sp => isPfxL sp q || q = sp) || isPfxL ".".data q

/-- `dangerous_paths` of `_validate_all_paths`. -/
def dangerousPaths : List (List Char) :=
  (["/etc", "/root", "/sys", "/proc", "/boot", "/dev/sd"]).map String.data

/-- First dangerous path a non-flag token hits (`startswith` or `'/'+d in part`). -/
def partDanger (part : List Char) : Option (List Char) :=
  dangerousPaths.find? (fun d => isPfxL d part || containsL ('/' :: d) part)

/-- `CommandSafetyValidator._validate_all_paths`: the dangerous-path sweep
over non-flag tokens, then the `..`-traversal bound. -/
def validateAllPathsL (c : List Char) : Option String :=
  match ((splitWs c).filter (fun p => ¬ isFlag p)).findSome? partDanger with
  | some d => some ("❌ Access to " ++ String.mk d ++ " is forbidden")
  | none =>
      if (containsL "/../".data c || endswithL "/..".data c) ∧ countOcc "..".data c > 3 then
        some "❌ Excessive directory traversal detected"
      else none

/-- The tuple `(is_safe, warnings, sanitized_command)` returned by `validate`. -/
structure ValidationResult where
  is_safe : Bool
  warnings : List String
  sanitized_command : Option String
deriving DecidableEq, Repr

/-- The blocked result for a write target inside a read-only mount. -/
def roBlock (t : List Char) : ValidationResult :=
  ⟨false, ["❌ BLOCKED: Cannot write to read-only path: " ++ String.mk t], none⟩

/-- The blocked result for a write target outside the sandbox. -/
def outsideBlock (t : List Char) : ValidationResult :=
  ⟨false, ["❌ BLOCKED: Path outside sandbox: " ++ String.mk t], none⟩

/-- The per-target loop of `validate` step 4: first failure wins. -/
def checkTargets : List (List Char) → Option ValidationResult
  | [] => none
  | t :: ts =>
      if isReadonlyPathL t then some (roBlock t)
      else if ¬ isInSandboxL t then some (outsideBlock t)
      else checkTargets ts

/-- The local `command = command.strip()` of `validate`. -/
def strippedCmd (command : String) : List Char := pyStrip command.data

/-- The local `sanitized_command = self._sanitize_paths(command)` of `validate`. -/
def sanCmd (command : String) : List Char := sanitizePathsL (strippedCmd command)

/-- The local `base_command` of `validate`. -/
def baseCmd (command : String) : List Char := getBaseCommandL (sanCmd command)

/-- The local `is_write_cmd` of `validate`. -/
def isWriteCmd (command : String) : Bool := writeCommands.contains (baseCmd command)

/-- Step 4 of `validate` as a whole: the target loop runs only for
write-capable base commands, and yields the first blocking result, if any. -/
def writeCheck (command : String) : Option ValidationResult :=
  if isWriteCmd command then
    checkTargets (extractTargetsL (sanCmd command) (baseCmd command))
  else none

/-- The non-blocking warning appended for destructive write commands. -/
def destructiveWarn (command : String) : List String :=
  if isWriteCmd command ∧
      (["rm".data, "rmdir".data, "shred".data, "truncate".data]).contains (baseCmd command) then
    ["⚠️  Destructive command: " ++ String.mk (baseCmd command)]
  else []

/-- `CommandSafetyValidator.validate`, with the source's step order:
empty check, forbidden patterns, path sanitization, base-command
classification, write-target boundary checks, injection detection,
final path sweep. -/
def validate (command : String) : ValidationResult :=
  if strippedCmd command = [] then ⟨false, ["❌ Empty command"], none⟩
  else if forbiddenMatch (strippedCmd command) then
    ⟨false, ["❌ FORBIDDEN: Dangerous operation detected"], none⟩
  else
    match writeCheck command with
    | some r => r
    | none =>
        if injectionDetected (sanCmd command) then
          ⟨false, ["❌ Security risk: Command injection detected"], none⟩
        else
          match validateAllPathsL (sanCmd command) with
          | some err => ⟨false, [err], none⟩
          | none =>
              ⟨true, destructiveWarn command ++ injectionWarnings (sanCmd command),
               some (String.mk (sanCmd command))⟩

/-- `CommandSafetyValidator.is_safe_for_readonly`. -/
def isSafeForReadonly (command : String) : Bool :=
  readonlyCommands.contains (getBaseCommandL command.data)

/-! The sandbox executor (`src/sandbox/executor.py`).  Docker API calls and
`subprocess.run` are external effects; they are modelled as oracle
parameters, while the executor code around them is embedded as written.
The wall-clock `timestamp` field of the result dicts is omitted (it is
`datetime.now()`, outside the embedding). -/

/-- The result dict built by `_execute_docker` / `_execute_local`
(`original_command` is set only by the local success branch). -/
structure ExecutionResult where
  status : String
  exit_code : Int
  stdout : String
  stderr : String
  command : String
  original_command : Option String
  execution_method : String
deriving DecidableEq, Repr

/-- Outcome of one `subprocess.run(..., timeout=t)` call: the process
completed, the timeout expired (`subprocess.TimeoutExpired`), or another
exception was raised. -/
inductive SubprocOutcome where
  | completed (returncode : Int) (stdout stderr : String)
  | timedOut
  | raised (msg : String)
deriving DecidableEq, Repr

/-- Outcome of one `container.exec_run(...)` call.  The call takes **no**
timeout argument in the source, so it returns only when the process ends;
`elapsedSecs` records how long the underlying process ran (an observation
about the environment, which the executor code cannot consult). -/
inductive DockerExecOutcome where
  | raised (msg : String)
  | finished (elapsedSecs : Nat) (exitCode : Int) (stdoutBytes stderrBytes : Option String)
deriving DecidableEq, Repr

/-- `self.path_mapping.items()` sorted by key length, descending (Python's
stable sort on the dict's insertion order Desktop, Documents, Downloads,
workspace, home; lengths 18, 20, 20, 20, 10 give this order).  `home` is the
host `Path.home()` and the workspace is `~/glsfs/data/workspace`. -/
def pathMappingSorted (home : String) : List (String × String) :=
  [("/home/user/Documents", home ++ "/Documents"),
   ("/home/user/Downloads", home ++ "/Downloads"),
   ("/home/user/workspace", home ++ "/glsfs/data/workspace"),
   ("/home/user/Desktop", home ++ "/Desktop"),
   ("/home/user", home)]

/-- `SandboxExecutor._translate_path_for_local` (the `if mac_path:`
truthiness check keeps empty mappings untouched). -/
def translatePathForLocal (home : String) (command : String) : String :=
  (pathMappingSorted home).foldl
    (fun r p => if p.2 ≠ "" then String.mk (replaceAll p.1.data p.2.data r.data) else r)
    command

/-- `SandboxExecutor._execute_local`: translate paths, run the subprocess,
and map each outcome to a result dict — `TimeoutExpired` to the labelled
timeout error, any other exception to an error result with the exception
text as `stderr`. -/
def executeLocal (runProc : String → Nat → SubprocOutcome) (home command : String)
    (timeout : Nat) : ExecutionResult :=
  match runProc (translatePathForLocal home command) timeout with
  | .completed rc out err =>
      ⟨if rc = 0 then "success" else "error", rc, out, err,
       translatePathForLocal home command, some command, "local"⟩
  | .timedOut =>
      ⟨"error", -1, "", "Timed out after " ++ toString timeout ++ "s",
       translatePathForLocal home command, none, "local"⟩
  | .raised m =>
      ⟨"error", -1, "", m, translatePathForLocal home command, none, "local"⟩

/-- `SandboxExecutor._execute_docker`: run `exec_run` (no deadline can be
passed to it), decode the demuxed streams (`None` becomes `''`), and map the
exit code to the status; any exception is caught and execution falls back to
`_execute_local` for this call. -/
def executeDocker (execRun : String → DockerExecOutcome)
    (runProc : String → Nat → SubprocOutcome) (home command : String)
    (timeout : Nat) : ExecutionResult :=
  match execRun command with
  | .finished _ rc ob eb =>
      ⟨if rc = 0 then "success" else "error", rc, ob.getD "", eb.getD "", command, none, "docker"⟩
  | .raised _ => executeLocal runProc home command timeout

/-- `SandboxExecutor.execute`: re-normalize defensively, then dispatch on
`use_docker`. -/
def execute (useDocker : Bool) (execRun : String → DockerExecOutcome)
    (runProc : String → Nat → SubprocOutcome) (home command : String)
    (timeout : Nat) : ExecutionResult :=
  let normalized := smartNormalize command
  if useDocker then executeDocker execRun runProc home normalized timeout
  else executeLocal runProc home normalized timeout

/-- Outcome of `_setup_docker`'s effectful body (`docker.from_env()` plus
`_ensure_container()`): success, a `docker.errors.DockerException` (this
includes `ImageNotFound`, which `_ensure_container` re-raises), or any
other exception. -/
inductive DockerSetupOutcome where
  | ok
  | dockerError (msg : String)
  | otherError (msg : String)
deriving DecidableEq, Repr

/-- The constructor state the claims are about: the execution mode chosen. -/
structure ExecutorCtor where
  useDocker : Bool
deriving DecidableEq, Repr

/-- `SandboxExecutor.__init__` restricted to its mode decision: when
`use_docker` is requested, `_setup_docker` catches *every* exception, prints
a warning and downgrades `self.use_docker` to `False`; construction itself
returns normally.  `Except String` exposes whether anything propagates to
the caller of the constructor. -/
def initExecutor (useDockerArg : Bool) (setup : DockerSetupOutcome) : Except String ExecutorCtor :=
  if useDockerArg then
    match setup with
    | .ok => .ok ⟨true⟩
    | .dockerError _ => .ok ⟨false⟩
    | .otherError _ => .ok ⟨false⟩
  else .ok ⟨false⟩

/-- Modelled from the spec: the canonical absolute sandbox path a command's
path argument denotes, given that both the container `exec_run` and the
local fallback run with working directory `/home/user` (`workdir='/home/user'`
and `cwd=self.home` in the source).  A relative reference is resolved against
that working directory; used to compare the two normal forms in C9. -/
def resolveAgainstWorkdir (p : String) : String :=
  if isPfxL "/".data p.data then String.mk (normpathL p.data)
  else String.mk (normpathL ("/home/user/".data ++ p.data))

/-- No residual home-shortcut reference: the string contains no `~`, no
`$HOME` and no `${HOME}`.  One pass of either normalizer usually leaves its
output in this state; the idempotence counterexamples are exactly the inputs
whose normal form keeps such a residue. -/
def noResidual (s : List Char) : Bool :=
  !(containsL "~".data s) && !(containsL "$HOME".data s) &&
  !(containsL "$\x7bHOME\x7d".data s)

/-! Helper lemmas shared by the claim theorems. -/

/-- The empty pattern is a substring of everything (so a failed containment
check implies the pattern is non-empty). -/
theorem containsL_nil (s : List Char) : containsL [] s = true := by
  cases s <;> simp [containsL, isPfxL]

/-- A prefix test for `p ++ q` implies one for `p`. -/
theorem isPfxL_append_left {p q s : List Char} (h : isPfxL (p ++ q) s = true) :
    isPfxL p s = true := by
  induction p generalizing s with
  | nil => rfl
  | cons a ps ih =>
      cases s with
      | nil => simp [isPfxL] at h
      | cons c cs =>
          simp only [List.cons_append, isPfxL, Bool.and_eq_true] at h ⊢
          exact ⟨h.1, ih h.2⟩

/-- Substring containment of `p ++ q` implies containment of `p`. -/
theorem containsL_mono {p q s : List Char} (h : containsL (p ++ q) s = true) :
    containsL p s = true := by
  induction s with
  | nil =>
      simp only [containsL] at h ⊢
      exact isPfxL_append_left h
  | cons c cs ih =>
      simp only [containsL, Bool.or_eq_true] at h ⊢
      rcases h with h | h
      · exact Or.inl (isPfxL_append_left h)
      · exact Or.inr (ih h)

/-- Unfolding a failed containment check at a cons cell. -/
theorem not_contains_cons {pat : List Char} {c : Char} {cs : List Char}
    (h : containsL pat (c :: cs) = false) :
    isPfxL pat (c :: cs) = false ∧ containsL pat cs = false := by
  simpa [containsL] using h

/-- `str.replace` is the identity when the pattern does not occur. -/
theorem replaceGo_id {pat repl : List Char} :
    ∀ s, containsL pat s = false → replaceGo pat repl 0 s = s := by
  intro s
  induction s with
  | nil => intro _; rfl
  | cons c cs ih =>
      intro h
      obtain ⟨h1, h2⟩ := not_contains_cons h
      unfold replaceGo
      rw [if_neg (by simp [h1]), ih h2]

/-- `replaceAll` is the identity when the pattern does not occur. -/
theorem replaceAll_id {pat repl s : List Char} (h : containsL pat s = false) :
    replaceAll pat repl s = s := by
  have hp : pat ≠ [] := by rintro rfl; rw [containsL_nil] at h; cases h
  unfold replaceAll
  rw [if_neg hp]
  exact replaceGo_id s h

/-- The lookahead substitution is the identity when the token does not occur. -/
theorem subTokWsEnd_id {tok repl : List Char} :
    ∀ s, containsL tok s = false → subTokWsEnd tok repl s = s := by
  intro s
  induction s with
  | nil => intro _; rfl
  | cons c cs ih =>
      intro h
      obtain ⟨h1, h2⟩ := not_contains_cons h
      unfold subTokWsEnd at ih ⊢
      unfold subTokWsEndGo
      rw [if_neg (by simp [h1]), ih h2]

/-- Any blocked result produced by the target loop is unsafe and carries no
sanitized command. -/
theorem checkTargets_blocked {ts : List (List Char)} {r : ValidationResult}
    (h : checkTargets ts = some r) :
    r.is_safe = false ∧ r.sanitized_command = none := by
  induction ts with
  | nil => simp [checkTargets] at h
  | cons t ts ih =>
      unfold checkTargets at h
      split at h
      · cases h; exact ⟨rfl, rfl⟩
      · split at h
        · cases h; exact ⟨rfl, rfl⟩
        · exact ih h

/-- If every target is inside the sandbox and some target is in a read-only
mount, the target loop stops at the first read-only target with the
boundary-violation result. -/
theorem checkTargets_ro {ts : List (List Char)}
    (hall : ∀ t ∈ ts, isInSandboxL t = true)
    (hex : ∃ t ∈ ts, isReadonlyPathL t = true) :
    ∃ t ∈ ts, isReadonlyPathL t = true ∧ checkTargets ts = some (roBlock t) := by
  induction ts with
  | nil =>
      obtain ⟨t, ht, -⟩ := hex
      exact absurd ht (List.not_mem_nil t)
  | cons t ts ih =>
      by_cases hro : isReadonlyPathL t = true
      · exact ⟨t, List.mem_cons_self t ts, hro, by simp [checkTargets, hro]⟩
      · have hs : isInSandboxL t = true := hall t (List.mem_cons_self t ts)
        have hex' : ∃ u ∈ ts, isReadonlyPathL u = true := by
          obtain ⟨u, hu, hru⟩ := hex
          rcases List.mem_cons.mp hu with rfl | hu'
          · exact absurd hru hro
          · exact ⟨u, hu', hru⟩
        obtain ⟨u, hu, hru, heq⟩ := ih (fun x hx => hall x (List.mem_cons_of_mem _ hx)) hex'
        exact ⟨u, List.mem_cons_of_mem _ hu, hru, by simp [checkTargets, hro, hs, heq]⟩

/-! Claim theorems. -/

/-- C1, counterexample.  The claim asserts that a lowercase reference such as
`rm documents/file.txt` is rejected with a boundary violation; the code
accepts it (`_sanitize_paths` performs no case canonicalization, and the
read-only-mount comparison is case-sensitive), returning `is_safe = true`. -/
theorem c1_counterexample :
    validate "rm documents/file.txt" =
      ⟨true, ["⚠️  Destructive command: rm"], some "rm documents/file.txt"⟩ := by
  decide

/-- C1, amended.  For a non-empty command that matches no forbidden pattern,
whose base command is write-capable and whose extracted targets all lie in
the sandbox, if some extracted target falls (case-sensitively, after the
validator's tilde/`$HOME` expansion) under a read-only mount, then `validate`
returns the boundary-violation block for the first such target. -/
theorem c1_boundary_amended (c : String)
    (hne : strippedCmd c ≠ [])
    (hforb : forbiddenMatch (strippedCmd c) = false)
    (hwrite : isWriteCmd c = true)
    (hall : ∀ t ∈ extractTargetsL (sanCmd c) (baseCmd c), isInSandboxL t = true)
    (hex : ∃ t ∈ extractTargetsL (sanCmd c) (baseCmd c), isReadonlyPathL t = true) :
    ∃ t ∈ extractTargetsL (sanCmd c) (baseCmd c),
      isReadonlyPathL t = true ∧ validate c = roBlock t := by
  obtain ⟨t, ht, hro, hck⟩ := checkTargets_ro hall hex
  refine ⟨t, ht, hro, ?_⟩
  have hwc : writeCheck c = some (roBlock t) := by
    unfold writeCheck
    rw [if_pos hwrite, hck]
  unfold validate
  rw [if_neg hne, if_neg (by simp [hforb]), hwc]

/-- C1, witness for the amended theorem at `rm Documents/file.txt`. -/
theorem c1_boundary_amended_witness :
    (strippedCmd "rm Documents/file.txt" ≠ [] ∧
     forbiddenMatch (strippedCmd "rm Documents/file.txt") = false ∧
     isWriteCmd "rm Documents/file.txt" = true) ∧
    (∃ t ∈ extractTargetsL (sanCmd "rm Documents/file.txt") (baseCmd "rm Documents/file.txt"),
      isReadonlyPathL t = true ∧ validate "rm Documents/file.txt" = roBlock t) :=
  ⟨⟨by decide, by decide, by decide⟩,
   c1_boundary_amended "rm Documents/file.txt" (by decide) (by decide) (by decide)
     (by decide) (by decide)⟩

/-- C2.  A command (non-empty after stripping) matching any forbidden pattern
is rejected at step 1 with the fixed forbidden message and no sanitized
command; the result is exactly the step-1 literal, so no normalization,
boundary, injection or path-sweep outcome can influence it. -/
theorem c2_forbidden_short_circuit (c : String)
    (hne : strippedCmd c ≠ [])
    (hforb : forbiddenMatch (strippedCmd c) = true) :
    validate c = ⟨false, ["❌ FORBIDDEN: Dangerous operation detected"], none⟩ := by
  unfold validate
  rw [if_neg hne, if_pos hforb]

/-- C2, witness at `rm -rf /`. -/
theorem c2_forbidden_short_circuit_witness :
    (strippedCmd "rm -rf /" ≠ [] ∧
     forbiddenMatch (strippedCmd "rm -rf /") = true) ∧
    validate "rm -rf /" = ⟨false, ["❌ FORBIDDEN: Dangerous operation detected"], none⟩ :=
  ⟨⟨by decide, by decide⟩, c2_forbidden_short_circuit "rm -rf /" (by decide) (by decide)⟩

/-- C3.  For every command, an unsafe result carries no sanitized command,
and a safe result carries exactly the normalized (tilde/`$HOME`-expanded)
stripped command. -/
theorem c3_result_invariant (c : String) :
    ((validate c).is_safe = false → (validate c).sanitized_command = none) ∧
    ((validate c).is_safe = true →
      (validate c).sanitized_command = some (String.mk (sanCmd c))) := by
  unfold validate
  split
  · exact ⟨fun _ => rfl, fun h => by cases h⟩
  · split
    · exact ⟨fun _ => rfl, fun h => by cases h⟩
    · split
      · next r heq =>
          unfold writeCheck at heq
          split at heq
          · obtain ⟨h1, h2⟩ := checkTargets_blocked heq
            exact ⟨fun _ => h2, fun h => by rw [h1] at h; cases h⟩
          · cases heq
      · split
        · exact ⟨fun _ => rfl, fun h => by cases h⟩
        · split
          · exact ⟨fun _ => rfl, fun h => by cases h⟩
          · exact ⟨(fun h => by cases h), fun _ => rfl⟩

/-- C3, witness at `ls`: a safe command with its sanitized command present. -/
theorem c3_result_invariant_witness :
    (validate "ls").is_safe = true ∧
    (validate "ls").sanitized_command = some (String.mk (sanCmd "ls")) :=
  ⟨by decide, (c3_result_invariant "ls").2 (by decide)⟩

/-- C10.  Injection detection is an unanchored substring search: any command
that reaches step 5 (non-empty, no forbidden pattern, and the write-target
check finds nothing to block) whose sanitized form matches `eval` followed by
whitespace — even inside a longer word — is rejected with the injection
message.  The witness instantiates this with the benign read-only command
`cat retrieval notes.txt`, which is rejected. -/
theorem c10_eval_injection (c : String)
    (hne : strippedCmd c ≠ [])
    (hforb : forbiddenMatch (strippedCmd c) = false)
    (hwrite : writeCheck c = none)
    (heval : searchL patEval (sanCmd c) = true) :
    validate c = ⟨false, ["❌ Security risk: Command injection detected"], none⟩ := by
  have hinj : injectionDetected (sanCmd c) = true := by
    unfold injectionDetected
    exact List.any_eq_true.mpr ⟨patEval, by simp [injectionDangerous], heval⟩
  unfold validate
  rw [if_neg hne, if_neg (by simp [hforb]), hwrite]
  exact if_pos hinj

/-- A string with no residual home shortcut is a fixed point of
`_sanitize_paths`: every replacement step is the identity. -/
theorem sanitizePathsL_fixed {s : List Char} (h : noResidual s = true) :
    sanitizePathsL s = s := by
  have h1 : containsL "~".data s = false := by
    simp only [noResidual, Bool.and_eq_true, Bool.not_eq_true'] at h
    exact h.1.1
  have h2 : containsL "$HOME".data s = false := by
    simp only [noResidual, Bool.and_eq_true, Bool.not_eq_true'] at h
    exact h.1.2
  have h3 : containsL "$\x7bHOME\x7d".data s = false := by
    simp only [noResidual, Bool.and_eq_true, Bool.not_eq_true'] at h
    exact h.2
  have h1' : containsL "~/".data s = false := by
    cases hc : containsL "~/".data s with
    | false => rfl
    | true => rw [containsL_mono (p := "~".data) (q := "/".data) hc] at h1; cases h1
  have h2' : containsL "$HOME/".data s = false := by
    cases hc : containsL "$HOME/".data s with
    | false => rfl
    | true => rw [containsL_mono (p := "$HOME".data) (q := "/".data) hc] at h2; cases h2
  have h3' : containsL "$\x7bHOME\x7d/".data s = false := by
    cases hc : containsL "$\x7bHOME\x7d/".data s with
    | false => rfl
    | true => rw [containsL_mono (p := "$\x7bHOME\x7d".data) (q := "/".data) hc] at h3; cases h3
  show subTokWsEnd "~".data "/home/user".data
      (replaceAll "$\x7bHOME\x7d".data "/home/user".data
        (replaceAll "$HOME".data "/home/user".data
          (replaceAll "$\x7bHOME\x7d/".data "/home/user/".data
            (replaceAll "$HOME/".data "/home/user/".data
              (replaceAll "~/".data "/home/user/".data s))))) = s
  rw [replaceAll_id h1', replaceAll_id h2', replaceAll_id h3', replaceAll_id h2,
    replaceAll_id h3, subTokWsEnd_id s h1]

/-- A string with no residual home shortcut that is also a fixed point of the
folder-case pass is a fixed point of `_smart_normalize_command`. -/
theorem smartNormalizeL_fixed {s : List Char} (h : noResidual s = true)
    (hf : fixFolderCaseL s = s) : smartNormalizeL s = s := by
  have h1 : containsL "~".data s = false := by
    simp only [noResidual, Bool.and_eq_true, Bool.not_eq_true'] at h
    exact h.1.1
  have h2 : containsL "$HOME".data s = false := by
    simp only [noResidual, Bool.and_eq_true, Bool.not_eq_true'] at h
    exact h.1.2
  have h3 : containsL "$\x7bHOME\x7d".data s = false := by
    simp only [noResidual, Bool.and_eq_true, Bool.not_eq_true'] at h
    exact h.2
  have h1' : containsL "~/".data s = false := by
    cases hc : containsL "~/".data s with
    | false => rfl
    | true => rw [containsL_mono (p := "~".data) (q := "/".data) hc] at h1; cases h1
  have h2' : containsL "$HOME/".data s = false := by
    cases hc : containsL "$HOME/".data s with
    | false => rfl
    | true => rw [containsL_mono (p := "$HOME".data) (q := "/".data) hc] at h2; cases h2
  have h3' : containsL "$\x7bHOME\x7d/".data s = false := by
    cases hc : containsL "$\x7bHOME\x7d/".data s with
    | false => rfl
    | true => rw [containsL_mono (p := "$\x7bHOME\x7d".data) (q := "/".data) hc] at h3; cases h3
  unfold smartNormalizeL
  by_cases hs : s = []
  · rw [if_pos hs]
  · rw [if_neg hs]
    show fixFolderCaseL
        (subTokWsEnd "$\x7bHOME\x7d".data "/home/user".data
          (subTokWsEnd "$HOME".data "/home/user".data
            (replaceAll "$\x7bHOME\x7d/".data "/home/user/".data
              (replaceAll "$HOME/".data "/home/user/".data
                (subTokWsEnd "~".data "/home/user".data
                  (replaceAll "~/".data "/home/user/".data s)))))) = s
    rw [replaceAll_id h1', subTokWsEnd_id s h1, replaceAll_id h2',
      replaceAll_id h3', subTokWsEnd_id s h2, subTokWsEnd_id s h3]
    exact hf

/-- C4, counterexample.  On the command `~~/` both normalizers leave a
residual `~/` in their output, so a second application expands it again:
neither `_sanitize_paths` nor `_smart_normalize_command` is idempotent. -/
theorem c4_counterexample :
    sanitizePaths (sanitizePaths "~~/") ≠ sanitizePaths "~~/" ∧
    smartNormalize (smartNormalize "~~/") ≠ smartNormalize "~~/" := by
  decide

/-- C4, amended.  `_sanitize_paths` is idempotent on every command whose
once-normalized output has no residual `~`/`$HOME`/`${HOME}` reference;
`_smart_normalize_command` is idempotent on every command whose
once-normalized output additionally is a fixed point of the folder-case
pass (both conditions hold for ordinary commands; `~~/` violates the first). -/
theorem c4_idempotence_amended :
    (∀ c : String, noResidual (sanitizePaths c).data = true →
      sanitizePaths (sanitizePaths c) = sanitizePaths c) ∧
    (∀ c : String, noResidual (smartNormalize c).data = true →
      fixFolderCaseL (smartNormalize c).data = (smartNormalize c).data →
      smartNormalize (smartNormalize c) = smartNormalize c) := by
  constructor
  · intro c h
    show String.mk (sanitizePathsL (sanitizePaths c).data) = sanitizePaths c
    rw [sanitizePathsL_fixed h]
  · intro c h hf
    show String.mk (smartNormalizeL (smartNormalize c).data) = smartNormalize c
    rw [smartNormalizeL_fixed h hf]

/-- C4, witness: `rm ~/x` normalizes to `rm /home/user/x`, which has no
residue, so `_sanitize_paths` is idempotent there; `ls documents` normalizes
to `ls Documents`, a residue-free fixed point of the folder-case pass, so
`_smart_normalize_command` is idempotent there. -/
theorem c4_idempotence_amended_witness :
    (noResidual (sanitizePaths "rm ~/x").data = true ∧
     sanitizePaths (sanitizePaths "rm ~/x") = sanitizePaths "rm ~/x") ∧
    (noResidual (smartNormalize "ls documents").data = true ∧
     fixFolderCaseL (smartNormalize "ls documents").data = (smartNormalize "ls documents").data ∧
     smartNormalize (smartNormalize "ls documents") = smartNormalize "ls documents") :=
  ⟨⟨by decide, c4_idempotence_amended.1 "rm ~/x" (by decide)⟩,
   ⟨by decide, by decide, c4_idempotence_amended.2 "ls documents" (by decide) (by decide)⟩⟩

/-- C10, witness: `cat retrieval notes.txt` contains `eval ` inside
`retrieval notes` and is rejected by `validate`. -/
theorem c10_eval_injection_witness :
    searchL patEval (sanCmd "cat retrieval notes.txt") = true ∧
    validate "cat retrieval notes.txt" =
      ⟨false, ["❌ Security risk: Command injection detected"], none⟩ :=
  ⟨by decide,
   c10_eval_injection "cat retrieval notes.txt" (by decide) (by decide) (by decide) (by decide)⟩

/-- C5, counterexample.  The claim says a runtime exception during sandbox
invocation yields `status = error` with the exception text in `stderr`.
In the code the `except` branch instead falls back to local execution: with
`exec_run` raising `"boom"` and the local subprocess succeeding, the result
is a successful local result whose `stderr` is empty — no error status and
no exception text. -/
theorem c5_counterexample :
    executeDocker (fun _ => .raised "boom") (fun _ _ => .completed 0 "listing" "")
        "/Users/mac" "ls" 30 =
      ⟨"success", 0, "listing", "", "ls", some "ls", "local"⟩ := by
  decide

/-- C5, amended.  A runtime exception while invoking the sandbox never
propagates: `_execute_docker` catches it and returns the result of falling
back to `_execute_local` for that call, which is always a structured result
tagged `execution_method = local` (an exception inside the local path itself
is reported as `status = error` with the exception text in `stderr`). -/
theorem c5_fallback_amended (execRun : String → DockerExecOutcome)
    (runProc : String → Nat → SubprocOutcome) (home cmd : String) (t : Nat) (m : String)
    (h : execRun cmd = .raised m) :
    executeDocker execRun runProc home cmd t = executeLocal runProc home cmd t ∧
    (executeDocker execRun runProc home cmd t).execution_method = "local" ∧
    executeLocal (fun _ _ => .raised m) home cmd t =
      ⟨"error", -1, "", m, translatePathForLocal home cmd, none, "local"⟩ := by
  have h1 : executeDocker execRun runProc home cmd t = executeLocal runProc home cmd t := by
    unfold executeDocker
    rw [h]
  refine ⟨h1, ?_, rfl⟩
  rw [h1]
  unfold executeLocal
  cases runProc (translatePathForLocal home cmd) t <;> rfl

/-- C5, witness for the amended theorem with a raising sandbox oracle. -/
theorem c5_fallback_amended_witness :
    executeDocker (fun _ => .raised "boom") (fun _ _ => .completed 0 "listing" "")
        "/Users/mac" "ls" 30 =
      executeLocal (fun _ _ => .completed 0 "listing" "") "/Users/mac" "ls" 30 ∧
    (executeDocker (fun _ => .raised "boom") (fun _ _ => .completed 0 "listing" "")
        "/Users/mac" "ls" 30).execution_method = "local" ∧
    executeLocal (fun _ _ => .raised "boom") "/Users/mac" "ls" 30 =
      ⟨"error", -1, "", "boom", translatePathForLocal "/Users/mac" "ls", none, "local"⟩ :=
  c5_fallback_amended (fun _ => .raised "boom") (fun _ _ => .completed 0 "listing" "")
    "/Users/mac" "ls" 30 "boom" rfl

/-- C6, counterexample.  The claim says construction raises when the Docker
runtime or image is unavailable.  In the code `_setup_docker` catches the
`DockerException` (including `ImageNotFound` re-raised by
`_ensure_container`), prints a warning and downgrades to local mode:
construction returns normally with `use_docker = False`. -/
theorem c6_counterexample :
    initExecutor true (.dockerError "404 Client Error: image glsfs-sandbox not found") =
      .ok ⟨false⟩ := rfl

/-- C6, amended.  Every initialization failure (Docker exception or any other
exception) is swallowed by `_setup_docker`: the constructor completes
normally and only downgrades the mode flag to local. -/
theorem c6_swallow_amended (msg : String) :
    initExecutor true (.dockerError msg) = .ok ⟨false⟩ ∧
    initExecutor true (.otherError msg) = .ok ⟨false⟩ :=
  ⟨rfl, rfl⟩

/-- C7, counterexample.  In sandboxed mode the timeout is never applied to
the container call: a process that runs 100 seconds under a 1-second timeout
still yields a `success` result with no timeout message, because `exec_run`
is invoked without any deadline. -/
theorem c7_counterexample :
    executeDocker (fun _ => .finished 100 0 (some "done") none)
        (fun _ _ => .completed 0 "" "") "/Users/mac" "sleep 100" 1 =
      ⟨"success", 0, "done", "", "sleep 100", none, "docker"⟩ := by
  decide

/-- C7, amended.  In local mode (including the docker-to-local fallback), a
subprocess timeout yields `status = error` with the distinct message
`Timed out after {t}s`; in sandboxed mode the executor passes no deadline to
the container call, so when `exec_run` completes, the result is the same for
every timeout value and carries no timeout error. -/
theorem c7_timeout_amended :
    (∀ (runProc : String → Nat → SubprocOutcome) (home c : String) (t : Nat),
      runProc (translatePathForLocal home c) t = .timedOut →
      executeLocal runProc home c t =
        ⟨"error", -1, "", "Timed out after " ++ toString t ++ "s",
         translatePathForLocal home c, none, "local"⟩) ∧
    (∀ (execRun : String → DockerExecOutcome) (runProc : String → Nat → SubprocOutcome)
        (home c : String) (t₁ t₂ : Nat) (el : Nat) (rc : Int) (ob eb : Option String),
      execRun c = .finished el rc ob eb →
      executeDocker execRun runProc home c t₁ = executeDocker execRun runProc home c t₂) := by
  constructor
  · intro runProc home c t h
    unfold executeLocal
    rw [h]
  · intro execRun runProc home c t₁ t₂ el rc ob eb h
    unfold executeDocker
    rw [h]

/-- C7, witness: a timing-out local subprocess yields the labelled timeout
error, and a finished container call gives the same result under timeouts 1
and 1000000. -/
theorem c7_timeout_amended_witness :
    executeLocal (fun _ _ => .timedOut) "/Users/mac" "sleep 100" 30 =
      ⟨"error", -1, "", "Timed out after " ++ toString 30 ++ "s",
       translatePathForLocal "/Users/mac" "sleep 100", none, "local"⟩ ∧
    executeDocker (fun _ => .finished 100 0 (some "done") none)
        (fun _ _ => .completed 0 "" "") "/Users/mac" "sleep 100" 1 =
      executeDocker (fun _ => .finished 100 0 (some "done") none)
        (fun _ _ => .completed 0 "" "") "/Users/mac" "sleep 100" 1000000 :=
  ⟨c7_timeout_amended.1 (fun _ _ => .timedOut) "/Users/mac" "sleep 100" 30 rfl,
   c7_timeout_amended.2 (fun _ => .finished 100 0 (some "done") none)
     (fun _ _ => .completed 0 "" "") "/Users/mac" "sleep 100" 1 1000000 100 0
     (some "done") none rfl⟩

/-- C8, counterexample.  The claim says the normalizer never rewrites tokens
fully enclosed in quotes; but the string-level `/home/user/<folder>` case
regex also applies inside quotes: the quoted token in
`ls '/home/user/documents/a.txt'` is rewritten. -/
theorem c8_counterexample :
    smartNormalize "ls \x27/home/user/documents/a.txt\x27" =
      "ls \x27/home/user/Documents/a.txt\x27" ∧
    ("ls \x27/home/user/Documents/a.txt\x27" : String) ≠
      "ls \x27/home/user/documents/a.txt\x27" := by
  decide

/-- C8, amended.  Only the token-level folder-case rewrite skips quoted
tokens (any token starting with a quote is returned unchanged), so the
quoted glob in `find . -path '*/documents/*'` survives normalization intact;
string-level rewrites (tilde/`$HOME` expansion and the
`/home/user/<folder>` case regex) do apply inside quotes. -/
theorem c8_quoted_amended :
    smartNormalize "find . -path \x27*/documents/*\x27" =
      "find . -path \x27*/documents/*\x27" ∧
    (∀ (w cn t : List Char), (isPfxL [squote] t || isPfxL [dquote] t) = true →
      fixTok w cn t = t) := by
  constructor
  · decide
  · intro w cn t h
    unfold fixTok
    rw [if_pos h]

/-- C8, witness: the quoted pattern token of the `find` command starts with a
quote, and the token-level fix leaves it unchanged. -/
theorem c8_quoted_amended_witness :
    (isPfxL [squote] "\x27*/documents/*\x27".data ||
      isPfxL [dquote] "\x27*/documents/*\x27".data) = true ∧
    smartNormalize "find . -path \x27*/documents/*\x27" =
      "find . -path \x27*/documents/*\x27" ∧
    fixTok "documents".data "Documents".data "\x27*/documents/*\x27".data =
      "\x27*/documents/*\x27".data :=
  ⟨by decide, c8_quoted_amended.1,
   c8_quoted_amended.2 "documents".data "Documents".data "\x27*/documents/*\x27".data
     (by decide)⟩

/-- C9, counterexample.  The claim says `ls documents` and `ls ~/Documents`
normalize to the same canonical absolute sandbox path; in the code the first
is only case-fixed to the relative `ls Documents` while the second becomes
the absolute `ls /home/user/Documents`, so the normal forms differ. -/
theorem c9_counterexample :
    smartNormalize "ls documents" = "ls Documents" ∧
    smartNormalize "ls ~/Documents" = "ls /home/user/Documents" ∧
    ("ls Documents" : String) ≠ "ls /home/user/Documents" := by
  decide

/-- C9, amended.  `ls documents` normalizes to the case-canonical relative
form `ls Documents` and `ls ~/Documents` to the absolute
`ls /home/user/Documents`; the two path references denote the same canonical
absolute sandbox path once the relative one is resolved against the fixed
working directory `/home/user`, but the normalized command strings are not
equal. -/
theorem c9_normalization_amended :
    smartNormalize "ls documents" = "ls Documents" ∧
    smartNormalize "ls ~/Documents" = "ls /home/user/Documents" ∧
    resolveAgainstWorkdir "Documents" = "/home/user/Documents" ∧
    resolveAgainstWorkdir "/home/user/Documents" = "/home/user/Documents" := by
  decide

end GLSFS
